import Mathlib

/- Verification development for the motorparts client (mopar web-portal API).

   The Python module src/motorparts/__init__.py is shallowly embedded here.
   Network and timing side effects are made explicit: every operation is a
   function from the session state (abstracted to its logged-in flag; the
   cookie jar and header contents are opaque to every property below) to a
   trace of effects, the mutated session state, and an Except result that
   models Python exceptions.  The server's responses are supplied by an
   explicit environment value, playing the role of the remote portal. -/

namespace Motorparts

/-- Observable effects: a network request (tagged by which endpoint the
    source hits), an invocation of the login routine, and a sleep. -/
inductive Eff where
  | net (endpointTag : String)
  | loginEv
  | sleepEv (seconds : Nat)
  deriving DecidableEq, Repr

/-- Python exception kinds that the source can raise: `MoparError` (the
    module's own class, carrying a message), `AttributeError` (raised by
    `None.get(...)` when BeautifulSoup's `find` returns `None`), and
    `JSONDecodeError`/`KeyError`-style failures when a response body is not
    the expected JSON document (uncaught except inside `get_profile`). -/
inductive MErr where
  | mopar (msg : String)
  | attr
  | jsonError
  deriving DecidableEq, Repr

/-- Result of running one embedded operation: the effect trace it produced,
    the session state it left behind, and its outcome. -/
structure Res (α : Type) where
  trace : List Eff
  sess : Bool
  res : Except MErr α
  deriving Repr

/-- An embedded operation: session state in, trace/state/outcome out.
    The session state is its logged-in flag (`_login` completes ⇒ true). -/
def M (α : Type) : Type := Bool → Res α

/-- Sequencing of embedded operations: Python statement order, with an
    uncaught exception aborting the rest (its trace and state mutations up
    to that point are kept). -/
def bindM {α β : Type} (x : M α) (f : α → M β) : M β := fun s =>
  let r := x s
  match r.res with
  | Except.error e => ⟨r.trace, r.sess, Except.error e⟩
  | Except.ok a =>
    let r2 := f a r.sess
    ⟨r.trace ++ r2.trace, r2.sess, r2.res⟩

/-- An effect-free return. -/
def pureM {α : Type} (a : α) : M α := fun s => ⟨[], s, Except.ok a⟩

/-- Raise/return an already-computed outcome without touching the session. -/
def liftExc {α : Type} (e : Except MErr α) : M α := fun s => ⟨[], s, e⟩

/-- One vehicle record of the profile document (the fields the client reads). -/
structure Vehicle where
  uuid : String
  vin : String
  deriving DecidableEq, Repr

/-- The profile document: the client only consumes its vehicle list here. -/
structure Profile where
  vehicles : List Vehicle
  deriving DecidableEq, Repr

/-- What the profile endpoint answers: a parsed document, a 403-style
    `errorCode` document, or a body that is not valid JSON. -/
inductive ProfileResp where
  | ok (p : Profile)
  | forbidden
  | malformed
  deriving Repr

/-- The remote portal, as a test double: the SSO response's HTML input
    fields (by name), and each endpoint's response, possibly depending on
    whether the session is logged in.  `statusResp i` is the `status` field
    of the i-th remote-status query's response. -/
structure Env where
  ssoHtml : List (String × String)
  profileResp : Bool → ProfileResp
  tokenResp : Bool → Option String
  vhrResp : Option String
  towResp : Option String
  commandResp : Option String
  statusResp : Nat → String

/-- BeautifulSoup `find('input', ..name..)` then `.get('value')`, as an
    association-list lookup over the document's input fields. -/
def lookupField (fields : List (String × String)) (name : String) : Option String :=
  (fields.find? (fun f => f.1 = name)).map Prod.snd

def COMMAND_LOCK : String := "LOCK"
def COMMAND_UNLOCK : String := "UNLOCK"
def COMMAND_ENGINE_ON : String := "START"
def COMMAND_ENGINE_OFF : String := "STOP"
def COMMAND_HORN : String := "HORN_LIGHT"

def SUPPORTED_COMMANDS : List String :=
  [COMMAND_LOCK, COMMAND_UNLOCK, COMMAND_ENGINE_ON, COMMAND_ENGINE_OFF, COMMAND_HORN]

/-- `_login`: clear cookies, POST credentials to the SSO endpoint, extract
    `RelayState` and `SAMLResponse` from the HTML (absence makes `find`
    return `None`, so `.get('value')` raises `AttributeError`), POST them to
    the sign-in endpoint, GET the sign-in page, save cookies.  The
    `loginEv` effect marks the login attempt; completion sets the session's
    logged-in flag. -/
def loginRun (env : Env) : M Unit := fun _s =>
  let t0 := [Eff.loginEv, Eff.net "sso"]
  match lookupField env.ssoHtml "RelayState" with
  | none => ⟨t0, false, Except.error MErr.attr⟩
  | some _relay =>
    match lookupField env.ssoHtml "SAMLResponse" with
    | none => ⟨t0, false, Except.error MErr.attr⟩
    | some _saml =>
      ⟨t0 ++ [Eff.net "signin-post", Eff.net "signin-get"], true, Except.ok ()⟩

/-- `_validate_vehicle`: raises `MoparError` when the index is out of range
    (`vehicle_index >= len(profile['vehicles']) or vehicle_index < 0`). -/
def validate_vehicle (vehicle_index : Int) (profile : Profile) : Except MErr Unit :=
  if vehicle_index ≥ (profile.vehicles.length : Int) ∨ vehicle_index < 0 then
    Except.error (MErr.mopar "vehicle does not exist")
  else
    Except.ok ()

/-- The `authenticated` decorator: run the operation; on `MoparError` (and
    only on that exception class) call `_login` and run the operation once
    more, letting the second outcome (or a login failure) propagate. -/
def authenticatedRun {α : Type} (env : Env) (f : M α) : M α := fun s =>
  let r := f s
  match r.res with
  | Except.error (MErr.mopar _) =>
    let rl := loginRun env r.sess
    match rl.res with
    | Except.error e => ⟨r.trace ++ rl.trace, rl.sess, Except.error e⟩
    | Except.ok _ =>
      let r2 := f rl.sess
      ⟨r.trace ++ rl.trace ++ r2.trace, r2.sess, r2.res⟩
  | _ => r

/-- Body of `get_profile` (before decoration): GET the profile endpoint;
    an `errorCode == '403'` document or a JSON decode failure both raise
    `MoparError "not logged in"`. -/
def getProfileBody (env : Env) : M Profile := fun s =>
  match env.profileResp s with
  | ProfileResp.ok p => ⟨[Eff.net "profile"], s, Except.ok p⟩
  | ProfileResp.forbidden => ⟨[Eff.net "profile"], s, Except.error (MErr.mopar "not logged in")⟩
  | ProfileResp.malformed => ⟨[Eff.net "profile"], s, Except.error (MErr.mopar "not logged in")⟩

/-- `get_profile = authenticated(...)`. -/
def get_profile (env : Env) : M Profile :=
  authenticatedRun env (getProfileBody env)

/-- The `token` decorator: GET the token endpoint and decode its JSON body
    (a malformed body raises an uncaught decode error), set the
    `mopar-csrf-salt` header (header contents are opaque here), then run
    the wrapped operation. -/
def tokenWrap {α : Type} (env : Env) (f : M α) : M α := fun s =>
  match env.tokenResp s with
  | none => ⟨[Eff.net "token"], s, Except.error MErr.jsonError⟩
  | some _tok =>
    let r := f s
    ⟨Eff.net "token" :: r.trace, r.sess, r.res⟩

/-- Body of `get_vehicle_health_report` (before decoration): fetch the
    profile via `get_profile`, validate the index, GET the VHR endpoint
    keyed by the vehicle's uuid and decode its JSON body. -/
def vhrBody (env : Env) (vehicle_index : Int) : M String :=
  bindM (get_profile env) (fun profile =>
    bindM (liftExc (validate_vehicle vehicle_index profile)) (fun _ =>
      fun s =>
        match env.vhrResp with
        | some body => ⟨[Eff.net "vhr"], s, Except.ok body⟩
        | none => ⟨[Eff.net "vhr"], s, Except.error MErr.jsonError⟩))

/-- `get_vehicle_health_report = authenticated(...)`. -/
def get_vehicle_health_report (env : Env) (vehicle_index : Int) : M String :=
  authenticatedRun env (vhrBody env vehicle_index)

/-- Body of `get_tow_guide` (before decoration): fetch the profile,
    validate the index, POST the vehicle's VIN to the tow-guide endpoint
    and decode its JSON body. -/
def towBody (env : Env) (vehicle_index : Int) : M String :=
  bindM (get_profile env) (fun profile =>
    bindM (liftExc (validate_vehicle vehicle_index profile)) (fun _ =>
      fun s =>
        match env.towResp with
        | some body => ⟨[Eff.net "tow"], s, Except.ok body⟩
        | none => ⟨[Eff.net "tow"], s, Except.error MErr.jsonError⟩))

/-- `get_tow_guide = authenticated(token(...))`. -/
def get_tow_guide (env : Env) (vehicle_index : Int) : M String :=
  authenticatedRun env (tokenWrap env (towBody env vehicle_index))

/-- `_remote_status`, made total with a fuel parameter standing for the
    unbounded recursion: GET the status endpoint; if the response's status
    is `SUCCESS` return `'completed'`; otherwise `time.sleep(interval)` and
    recurse (the recursive call passes no interval, so it reverts to the
    default 3).  `statuses i` is the i-th query's status field; fuel
    exhaustion yields `none` (the loop would still be running). -/
def remoteStatusFuel (statuses : Nat → String) :
    Nat → Nat → Nat → List Eff × Option String
  | 0, _, _ => ([], none)
  | fuel + 1, i, interval =>
    if statuses i = "SUCCESS" then
      ([Eff.net "status"], some "completed")
    else
      let rest := remoteStatusFuel statuses fuel (i + 1) 3
      (Eff.net "status" :: Eff.sleepEv interval :: rest.1, rest.2)

/-- `_remote_status` lifted into the session monad, reading statuses from
    the environment; the session state is untouched. -/
def remoteStatusM (env : Env) (fuel : Nat) : M (Option String) := fun s =>
  let r := remoteStatusFuel env.statusResp fuel 0 3
  ⟨r.1, s, Except.ok r.2⟩

/-- Body of `remote_command` (before the `token` decoration): reject a
    command outside `SUPPORTED_COMMANDS` with `MoparError`, fetch the
    profile, validate the index, pick the endpoint for the command kind,
    POST pin/vin/action and read `serviceRequestId` from the response, then
    poll for status when requested or return `'submitted'` at once.
    The result is `some outcome`, or `none` only when polling ran out of
    fuel. -/
def remoteCommandBody (env : Env) (command : String) (vehicle_index : Int)
    (poll : Bool) (fuel : Nat) : M (Option String) :=
  if command ∈ SUPPORTED_COMMANDS then
    bindM (get_profile env) (fun profile =>
      bindM (liftExc (validate_vehicle vehicle_index profile)) (fun _ =>
        bindM (fun s =>
          match env.commandResp with
          | some srid => (⟨[Eff.net "command"], s, Except.ok srid⟩ : Res String)
          | none => ⟨[Eff.net "command"], s, Except.error MErr.jsonError⟩)
          (fun _srid =>
            if poll then
              remoteStatusM env fuel
            else
              pureM (some "submitted"))))
  else
    liftExc (Except.error (MErr.mopar ("unsupported command: " ++ command)))

/-- `remote_command = token(...)`; `poll` defaults to true at call sites. -/
def remote_command (env : Env) (command : String) (vehicle_index : Int)
    (poll : Bool) (fuel : Nat) : M (Option String) :=
  tokenWrap env (remoteCommandBody env command vehicle_index poll fuel)

/-- `lock`: `remote_command(session, COMMAND_LOCK, vehicle_index)` with the
    default `poll=True`; the Python function returns `None`. -/
def lock (env : Env) (vehicle_index : Int) (fuel : Nat) : M Unit :=
  bindM (remote_command env COMMAND_LOCK vehicle_index true fuel) (fun _ => pureM ())

/-- `unlock`: as `lock`, with `COMMAND_UNLOCK`. -/
def unlock (env : Env) (vehicle_index : Int) (fuel : Nat) : M Unit :=
  bindM (remote_command env COMMAND_UNLOCK vehicle_index true fuel) (fun _ => pureM ())

/-- `engine_on`: as `lock`, with `COMMAND_ENGINE_ON`. -/
def engine_on (env : Env) (vehicle_index : Int) (fuel : Nat) : M Unit :=
  bindM (remote_command env COMMAND_ENGINE_ON vehicle_index true fuel) (fun _ => pureM ())

/-- `engine_off`: as `lock`, with `COMMAND_ENGINE_OFF`. -/
def engine_off (env : Env) (vehicle_index : Int) (fuel : Nat) : M Unit :=
  bindM (remote_command env COMMAND_ENGINE_OFF vehicle_index true fuel) (fun _ => pureM ())

/-- `horn`: as `lock`, with `COMMAND_HORN`. -/
def horn (env : Env) (vehicle_index : Int) (fuel : Nat) : M Unit :=
  bindM (remote_command env COMMAND_HORN vehicle_index true fuel) (fun _ => pureM ())

/-- A JSON value in a report item's `value` field: `null` or a string. -/
inductive RVal where
  | vnull
  | vstr (s : String)
  deriving DecidableEq, Repr

/-- One node of the vehicle-health-report tree: `itemKey`, `value`,
    `severity`, and the optional `items` list (`none` models a dict without
    the `items` key). -/
inductive RItem where
  | mk (itemKey : String) (value : RVal) (severity : String)
      (items : Option (List RItem))

def RItem.itemKey : RItem → String
  | RItem.mk k _ _ _ => k

def RItem.value : RItem → RVal
  | RItem.mk _ v _ _ => v

def RItem.severity : RItem → String
  | RItem.mk _ _ sev _ => sev

def RItem.items : RItem → Option (List RItem)
  | RItem.mk _ _ _ its => its

/-- The `value in [None, 'Null', 'N/A', 'NULL']` sentinel list. -/
def emptySentinels : List RVal :=
  [RVal.vnull, RVal.vstr "Null", RVal.vstr "N/A", RVal.vstr "NULL"]

/-- The skip condition of `_traverse_report`: severity `'NonDisplay'`, key
    `'categoryDesc'`, or a sentinel value. -/
def skipItem (i : RItem) : Bool :=
  decide (i.severity = "NonDisplay" ∨ i.itemKey = "categoryDesc" ∨
    i.value ∈ emptySentinels)

/-- The value normalization: `'Ok' if item['value'] == '0.0' else value`. -/
def rewriteVal (v : RVal) : RVal :=
  if v = RVal.vstr "0.0" then RVal.vstr "Ok" else v

/-- The flattening loop of `_traverse_report` over an `items` list, with
    the output dict represented as the chronological list of its writes:
    `out[k] = v` and `out.update(child)` both append, and dict lookup takes
    the last write (see `dictLookup`).  A kept item writes its own pair and
    then its recursively flattened children, in source order. -/
def traverseList : List RItem → List (String × RVal)
  | [] => []
  | i :: rest =>
    (if skipItem i then []
     else (i.itemKey, rewriteVal i.value) ::
       (match h : i.items with
        | none => []
        | some l => traverseList l)) ++ traverseList rest
  termination_by l => sizeOf l
  decreasing_by
    · cases i with
      | mk k v sev its =>
        simp only [RItem.items] at h
        subst h
        simp
        omega
    · simp

/-- `_traverse_report` on a node: an input without an `items` key yields
    the empty dict. -/
def traverse_report (data : Option (List RItem)) : List (String × RVal) :=
  match data with
  | none => []
  | some l => traverseList l

/-- Python-dict lookup over a chronological write list: the last write for
    the key wins. -/
def dictLookup (l : List (String × RVal)) (k : String) : Option RVal :=
  l.foldl (fun acc kv => if kv.1 = k then some kv.2 else acc) none

/-- An item of a tree (given as an `items` list) that the traversal reaches
    and keeps: either a non-skipped member of the list, or, recursively, a
    reached item of a non-skipped member's subtree. -/
inductive ReachKept : List RItem → RItem → Prop where
  | here {l : List RItem} {i : RItem} :
      i ∈ l → skipItem i = false → ReachKept l i
  | nested {l : List RItem} {i j : RItem} {l2 : List RItem} :
      i ∈ l → skipItem i = false → i.items = some l2 → ReachKept l2 j →
      ReachKept l j

lemma traverseList_nil : traverseList [] = [] := by
  simp [traverseList]

lemma traverseList_cons (i : RItem) (rest : List RItem) :
    traverseList (i :: rest) =
      (if skipItem i then []
       else (i.itemKey, rewriteVal i.value) :: traverse_report i.items) ++
        traverseList rest := by
  rw [traverseList]
  cases h : i.items <;> simp [traverse_report, h]

lemma traverseList_append (l1 l2 : List RItem) :
    traverseList (l1 ++ l2) = traverseList l1 ++ traverseList l2 := by
  induction l1 with
  | nil => simp [traverseList_nil]
  | cons i r ih =>
    simp [traverseList_cons, ih]

lemma dictFold_gen (l : List (String × RVal)) (k : String) (acc : Option RVal) :
    List.foldl (fun a kv => if kv.1 = k then some kv.2 else a) acc l =
      match List.foldl (fun a kv => if kv.1 = k then some kv.2 else a) none l with
      | some v => some v
      | none => acc := by
  induction l generalizing acc with
  | nil => simp
  | cons kv r ih =>
    simp only [List.foldl_cons]
    rw [ih, ih (if kv.1 = k then some kv.2 else none)]
    by_cases hk : kv.1 = k <;>
      cases h2 : List.foldl (fun a kv => if kv.1 = k then some kv.2 else a) none r <;>
      simp [hk]

lemma dictLookup_cons (kv : String × RVal) (l : List (String × RVal)) (k : String) :
    dictLookup (kv :: l) k =
      match dictLookup l k with
      | some v => some v
      | none => if kv.1 = k then some kv.2 else none := by
  unfold dictLookup
  simp only [List.foldl_cons]
  rw [dictFold_gen]

lemma dictLookup_append (a b : List (String × RVal)) (k : String) :
    dictLookup (a ++ b) k =
      match dictLookup b k with
      | some v => some v
      | none => dictLookup a k := by
  unfold dictLookup
  rw [List.foldl_append, dictFold_gen]

lemma dictLookup_some_mem (l : List (String × RVal)) (k : String) (v : RVal) :
    dictLookup l k = some v → (k, v) ∈ l := by
  induction l with
  | nil => intro h; simp [dictLookup] at h
  | cons kv r ih =>
    intro h
    rw [dictLookup_cons] at h
    cases h2 : dictLookup r k with
    | some w =>
      rw [h2] at h
      simp at h
      subst h
      exact List.mem_cons_of_mem _ (ih h2)
    | none =>
      rw [h2] at h
      simp only at h
      by_cases hk : kv.1 = k
      · rw [if_pos hk] at h
        simp at h
        have : kv = (k, v) := by
          cases kv
          simp at hk h
          simp [hk, h]
        rw [← this]
        exact List.mem_cons_self _ _
      · rw [if_neg hk] at h
        simp at h

lemma mem_key_isSome (l : List (String × RVal)) (k : String) (v : RVal) :
    (k, v) ∈ l → ∃ w, dictLookup l k = some w := by
  induction l with
  | nil => intro h; simp at h
  | cons kv r ih =>
    intro h
    rw [dictLookup_cons]
    rcases List.mem_cons.mp h with h1 | h2
    · cases h3 : dictLookup r k with
      | some w => exact ⟨w, rfl⟩
      | none =>
        refine ⟨v, ?_⟩
        simp only [← h1]
        simp
    · obtain ⟨w, hw⟩ := ih h2
      rw [hw]
      exact ⟨w, rfl⟩

lemma keep_mem_traverse (l : List RItem) (i : RItem) :
    i ∈ l → skipItem i = false →
    (i.itemKey, rewriteVal i.value) ∈ traverseList l := by
  induction l with
  | nil => intro h; simp at h
  | cons j r ih =>
    intro hmem hskip
    rw [traverseList_cons]
    rcases List.mem_cons.mp hmem with rfl | hmem2
    · rw [if_neg (by simp [hskip])]
      simp
    · exact List.mem_append_right _ (ih hmem2 hskip)

lemma nested_mem_traverse (l : List RItem) (i : RItem) (l2 : List RItem)
    (kv : String × RVal) :
    i ∈ l → skipItem i = false → i.items = some l2 → kv ∈ traverseList l2 →
    kv ∈ traverseList l := by
  induction l with
  | nil => intro h; simp at h
  | cons j r ih =>
    intro hmem hskip hitems hkv
    rw [traverseList_cons]
    rcases List.mem_cons.mp hmem with rfl | hmem2
    · rw [if_neg (by simp [hskip])]
      refine List.mem_append_left _ ?_
      rw [hitems]
      exact List.mem_cons_of_mem _ (by simpa [traverse_report] using hkv)
    · exact List.mem_append_right _ (ih hmem2 hskip hitems hkv)

lemma reach_to_mem (l : List RItem) (j : RItem) :
    ReachKept l j → (j.itemKey, rewriteVal j.value) ∈ traverseList l := by
  intro h
  induction h with
  | here hmem hskip => exact keep_mem_traverse _ _ hmem hskip
  | nested hmem hskip hitems _hr ih =>
    exact nested_mem_traverse _ _ _ _ hmem hskip hitems ih

lemma reach_weaken (l : List RItem) (j i : RItem) :
    ReachKept l j → ReachKept (i :: l) j := by
  intro h
  cases h with
  | here hmem hskip => exact ReachKept.here (List.mem_cons_of_mem _ hmem) hskip
  | nested hmem hskip hitems hr =>
    exact ReachKept.nested (List.mem_cons_of_mem _ hmem) hskip hitems hr

lemma rItem_sizeOf_pos (i : RItem) : 1 ≤ sizeOf i := by
  cases i
  simp
  omega

lemma mem_to_reach_bounded (n : Nat) :
    ∀ (l : List RItem) (kv : String × RVal), sizeOf l ≤ n →
    kv ∈ traverseList l →
    ∃ i, ReachKept l i ∧ i.itemKey = kv.1 ∧ rewriteVal i.value = kv.2 := by
  induction n with
  | zero =>
    intro l kv hs hm
    cases l with
    | nil => simp [traverseList_nil] at hm
    | cons i r => simp at hs
  | succ n ih =>
    intro l kv hs hm
    cases l with
    | nil => simp [traverseList_nil] at hm
    | cons i r =>
      rw [traverseList_cons] at hm
      have hsr : sizeOf r ≤ n := by
        have := rItem_sizeOf_pos i
        simp at hs
        omega
      rcases List.mem_append.mp hm with hm1 | hm2
      · cases hski : skipItem i with
        | true => rw [if_pos hski] at hm1; simp at hm1
        | false =>
          rw [if_neg (by simp [hski])] at hm1
          rcases List.mem_cons.mp hm1 with rfl | hm3
          · exact ⟨i, ReachKept.here (List.mem_cons_self _ _) hski, rfl, rfl⟩
          · cases hit : i.items with
            | none => rw [hit] at hm3; simp [traverse_report] at hm3
            | some l2 =>
              rw [hit] at hm3
              simp only [traverse_report] at hm3
              have hsl2 : sizeOf l2 ≤ n := by
                cases i with
                | mk k v sev its =>
                  simp only [RItem.items] at hit
                  subst hit
                  simp at hs
                  omega
              obtain ⟨j, hr, h1, h2⟩ := ih l2 kv hsl2 hm3
              exact ⟨j, ReachKept.nested (List.mem_cons_self _ _) hski hit hr, h1, h2⟩
      · obtain ⟨j, hr, h1, h2⟩ := ih r kv hsr hm2
        exact ⟨j, reach_weaken _ _ _ hr, h1, h2⟩

lemma mem_to_reach (l : List RItem) (kv : String × RVal) :
    kv ∈ traverseList l →
    ∃ i, ReachKept l i ∧ i.itemKey = kv.1 ∧ rewriteVal i.value = kv.2 :=
  mem_to_reach_bounded (sizeOf l) l kv (Nat.le_refl _)

/-- Whether an outcome is a raised `MoparError` (the module's error class). -/
def isMoparRes {α : Type} : Except MErr α → Bool
  | Except.error (MErr.mopar _) => true
  | _ => false

/-- A profile with a single vehicle, for concrete runs. -/
def sampleProfile : Profile := ⟨[⟨"uuid-1", "vin-1"⟩]⟩

/-- A healthy portal: login fields present, every endpoint answers, and the
    remote status is non-terminal twice before reporting `SUCCESS`. -/
def envOk : Env :=
  { ssoHtml := [("RelayState", "rs"), ("SAMLResponse", "sr")]
    profileResp := fun _ => ProfileResp.ok sampleProfile
    tokenResp := fun _ => some "tok"
    vhrResp := some "vhrbody"
    towResp := some "towbody"
    commandResp := some "srid-1"
    statusResp := fun i => if i < 2 then "PENDING" else "SUCCESS" }

/-- A portal whose SSO response lacks the `RelayState` input field. -/
def envNoRelay : Env := { envOk with ssoHtml := [("SAMLResponse", "sr")] }

/-- An operation that raises `MoparError` until the session is logged in,
    then succeeds: the session-expired scenario. -/
def opExpired : M Nat := fun s =>
  if s then ⟨[], s, Except.ok 7⟩
  else ⟨[], s, Except.error (MErr.mopar "not logged in")⟩

/-- A status endpoint that is non-terminal twice, then `SUCCESS`. -/
def statusesPP : Nat → String := fun i => if i < 2 then "PENDING" else "SUCCESS"

/-- A status endpoint that never reaches a terminal state. -/
def statusesNever : Nat → String := fun _ => "PENDING"

/-- Any invocation of `_login` contributes exactly one login attempt to the
    trace, whether or not it completes. -/
lemma loginRun_count (env : Env) (s : Bool) :
    ((loginRun env s).trace).count Eff.loginEv = 1 := by
  unfold loginRun
  cases lookupField env.ssoHtml "RelayState" <;>
    cases lookupField env.ssoHtml "SAMLResponse" <;>
    simp [List.count_cons, List.count_append]

/-- C3: the `authenticated` wrapper, on a first invocation that raises the
    not-authenticated signal (`MoparError`) and a login that completes,
    performs exactly one login and returns the retried invocation's
    outcome unmodified — the retry's success is returned, a second failure
    propagates as is, and never is a second login attempted.  The two count
    hypotheses say the wrapped operation performs no logins of its own. -/
theorem authenticated_retry_once {α : Type} (env : Env) (f : M α) (s : Bool)
    (m : String)
    (hfail1 : (f s).res = Except.error (MErr.mopar m))
    (hlogin : (loginRun env (f s).sess).res = Except.ok ())
    (hf1 : (f s).trace.count Eff.loginEv = 0)
    (hf2 : (f (loginRun env (f s).sess).sess).trace.count Eff.loginEv = 0) :
    (authenticatedRun env f s).res = (f (loginRun env (f s).sess).sess).res ∧
    (authenticatedRun env f s).trace.count Eff.loginEv = 1 := by
  have hcount := loginRun_count env (f s).sess
  cases hfs : f s with
  | mk t1 s1 r1 =>
    rw [hfs] at hfail1 hlogin hf1 hf2 hcount
    simp only at hfail1 hlogin hf1 hf2 hcount
    subst hfail1
    unfold authenticatedRun
    rw [hfs]
    simp only
    cases hlr : loginRun env s1 with
    | mk t2 s2 r2 =>
      rw [hlr] at hlogin hf2 hcount
      simp only at hlogin hf2 hcount
      subst hlogin
      simp only
      constructor
      · trivial
      · simp [List.count_append, hf1, hf2, hcount]

/-- Witness for C3: a concrete expired session; the wrapper returns the
    post-login result 7 after exactly one login. -/
theorem authenticated_retry_once_witness :
    (authenticatedRun envOk opExpired false).res = Except.ok 7 ∧
    (authenticatedRun envOk opExpired false).trace.count Eff.loginEv = 1 := by
  have h := authenticated_retry_once envOk opExpired false "not logged in"
    rfl rfl rfl rfl
  exact ⟨h.1.trans rfl, h.2⟩

/-- C4 (amended): when `RelayState` or `SAMLResponse` is absent from the
    SSO response body, `_login` fails — but with the `AttributeError` that
    `None.get('value')` raises, not with the client's `MoparError` kind. -/
theorem login_missing_field_attr (env : Env) (s : Bool)
    (h : lookupField env.ssoHtml "RelayState" = none ∨
         lookupField env.ssoHtml "SAMLResponse" = none) :
    (loginRun env s).res = Except.error MErr.attr := by
  unfold loginRun
  rcases h with h | h
  · rw [h]
  · cases h2 : lookupField env.ssoHtml "RelayState" with
    | none => rfl
    | some r => rw [h]

/-- Witness for C4: the concrete portal missing `RelayState`. -/
theorem login_missing_field_attr_witness :
    (loginRun envNoRelay false).res = Except.error MErr.attr :=
  login_missing_field_attr envNoRelay false (Or.inl rfl)

/-- Counterexample for C4 as stated: with `RelayState` absent, the failure
    is not the client's error kind (`MoparError`) — `isMoparRes` is false
    on the outcome (it is an `AttributeError`). -/
theorem login_missing_field_not_mopar :
    (loginRun envNoRelay false).res = Except.error MErr.attr ∧
    isMoparRes ((loginRun envNoRelay false).res) = false :=
  ⟨rfl, rfl⟩

/-- When the profile endpoint answers with a parsed document, `get_profile`
    is a single GET returning it. -/
lemma get_profile_const (env : Env) (p : Profile)
    (hprof : env.profileResp = fun _ => ProfileResp.ok p) (s : Bool) :
    get_profile env s = ⟨[Eff.net "profile"], s, Except.ok p⟩ := by
  unfold get_profile authenticatedRun getProfileBody
  rw [hprof]

/-- When both SSO fields are present, `_login` completes with the four-step
    trace and a logged-in session. -/
lemma loginRun_ok (env : Env) (rv sv : String)
    (hR : lookupField env.ssoHtml "RelayState" = some rv)
    (hS : lookupField env.ssoHtml "SAMLResponse" = some sv) (s : Bool) :
    loginRun env s =
      ⟨[Eff.loginEv, Eff.net "sso", Eff.net "signin-post", Eff.net "signin-get"],
       true, Except.ok ()⟩ := by
  unfold loginRun
  rw [hR, hS]
  simp

/-- An out-of-range index makes `_validate_vehicle` raise. -/
lemma validate_fail (idx : Int) (p : Profile)
    (hidx : idx ≥ (p.vehicles.length : Int) ∨ idx < 0) :
    validate_vehicle idx p = Except.error (MErr.mopar "vehicle does not exist") := by
  unfold validate_vehicle
  rw [if_pos hidx]

/-- C1 (amended): with a healthy portal and an out-of-range vehicle index,
    every vehicle-scoped operation fails with the validation `MoparError`
    "vehicle does not exist" — but the error is not permanent in the
    wrapper's eyes: `get_vehicle_health_report` and `get_tow_guide`, whose
    bodies run under the `authenticated` wrapper that catches every
    `MoparError`, perform exactly one login and one retry before the same
    validation error surfaces, while `remote_command` (wrapped only by
    `token`) performs no login at all. -/
theorem invalid_index_behavior (env : Env) (p : Profile) (tok rv sv : String)
    (idx : Int) (s : Bool) (cmd : String) (poll : Bool) (fuel : Nat)
    (hprof : env.profileResp = fun _ => ProfileResp.ok p)
    (htok : env.tokenResp = fun _ => some tok)
    (hR : lookupField env.ssoHtml "RelayState" = some rv)
    (hS : lookupField env.ssoHtml "SAMLResponse" = some sv)
    (hidx : idx ≥ (p.vehicles.length : Int) ∨ idx < 0)
    (hcmd : cmd ∈ SUPPORTED_COMMANDS) :
    ((get_vehicle_health_report env idx s).res =
        Except.error (MErr.mopar "vehicle does not exist") ∧
      (get_vehicle_health_report env idx s).trace.count Eff.loginEv = 1) ∧
    ((get_tow_guide env idx s).res =
        Except.error (MErr.mopar "vehicle does not exist") ∧
      (get_tow_guide env idx s).trace.count Eff.loginEv = 1) ∧
    ((remote_command env cmd idx poll fuel s).res =
        Except.error (MErr.mopar "vehicle does not exist") ∧
      (remote_command env cmd idx poll fuel s).trace.count Eff.loginEv = 0) := by
  have hgp := get_profile_const env p hprof
  have hlog := loginRun_ok env rv sv hR hS
  have hval := validate_fail idx p hidx
  have hbody : ∀ s0, vhrBody env idx s0 =
      ⟨[Eff.net "profile"], s0, Except.error (MErr.mopar "vehicle does not exist")⟩ := by
    intro s0
    simp [vhrBody, bindM, liftExc, hgp, hval]
  have hvhr : ∀ s0, get_vehicle_health_report env idx s0 =
      ⟨[Eff.net "profile", Eff.loginEv, Eff.net "sso", Eff.net "signin-post",
        Eff.net "signin-get", Eff.net "profile"], true,
       Except.error (MErr.mopar "vehicle does not exist")⟩ := by
    intro s0
    simp [get_vehicle_health_report, authenticatedRun, hbody, hlog]
  have hbodyTow : ∀ s0, tokenWrap env (towBody env idx) s0 =
      ⟨[Eff.net "token", Eff.net "profile"], s0,
       Except.error (MErr.mopar "vehicle does not exist")⟩ := by
    intro s0
    simp [tokenWrap, towBody, bindM, liftExc, htok, hgp, hval]
  have htow : ∀ s0, get_tow_guide env idx s0 =
      ⟨[Eff.net "token", Eff.net "profile", Eff.loginEv, Eff.net "sso",
        Eff.net "signin-post", Eff.net "signin-get", Eff.net "token",
        Eff.net "profile"], true,
       Except.error (MErr.mopar "vehicle does not exist")⟩ := by
    intro s0
    simp [get_tow_guide, authenticatedRun, hbodyTow, hlog]
  have hrc : remote_command env cmd idx poll fuel s =
      ⟨[Eff.net "token", Eff.net "profile"], s,
       Except.error (MErr.mopar "vehicle does not exist")⟩ := by
    simp [remote_command, tokenWrap, remoteCommandBody, bindM, liftExc, htok,
      hgp, hval, hcmd]
  rw [hvhr s, htow s, hrc]
  refine ⟨⟨rfl, rfl⟩, ⟨rfl, rfl⟩, ⟨rfl, rfl⟩⟩

/-- Witness for C1 (amended): `get_vehicle_health_report` on the healthy
    one-vehicle portal at index 1 surfaces the validation error after
    exactly one login. -/
theorem invalid_index_behavior_witness :
    (get_vehicle_health_report envOk 1 true).res =
      Except.error (MErr.mopar "vehicle does not exist") ∧
    (get_vehicle_health_report envOk 1 true).trace.count Eff.loginEv = 1 :=
  (invalid_index_behavior envOk sampleProfile "tok" "rs" "sr" 1 true
    COMMAND_LOCK true 0 rfl rfl rfl rfl (by decide) (by decide)).1

/-- Counterexample for C1 as stated: on the healthy one-vehicle portal,
    the out-of-range index 1 given to `get_vehicle_health_report` does
    yield the validation error, yet a re-login IS triggered (the trace's
    login count is not zero): the error is retried once, not permanent. -/
theorem vhr_invalid_index_triggers_relogin :
    (get_vehicle_health_report envOk 1 true).res =
      Except.error (MErr.mopar "vehicle does not exist") ∧
    ¬((get_vehicle_health_report envOk 1 true).trace.count Eff.loginEv = 0) := by
  refine ⟨rfl, ?_⟩
  have h : (get_vehicle_health_report envOk 1 true).trace.count Eff.loginEv = 1 := rfl
  omega

/-- C2 (amended): an unsupported command makes `remote_command` fail with
    the validation `MoparError` before the profile fetch and before any
    command POST — but after the `token` decorator has already issued the
    CSRF-token GET: the trace is exactly that one network call. -/
theorem unsupported_command_behavior (env : Env) (cmd : String) (idx : Int)
    (poll : Bool) (fuel : Nat) (s : Bool) (tok : String)
    (hcmd : cmd ∉ SUPPORTED_COMMANDS) (htok : env.tokenResp s = some tok) :
    remote_command env cmd idx poll fuel s =
      ⟨[Eff.net "token"], s,
       Except.error (MErr.mopar ("unsupported command: " ++ cmd))⟩ := by
  unfold remote_command tokenWrap remoteCommandBody
  rw [htok, if_neg hcmd]
  simp [liftExc]

/-- Witness for C2 (amended): the unsupported command `FLY` on the healthy
    portal. -/
theorem unsupported_command_behavior_witness :
    remote_command envOk "FLY" 0 true 0 true =
      ⟨[Eff.net "token"], true,
       Except.error (MErr.mopar "unsupported command: FLY")⟩ :=
  unsupported_command_behavior envOk "FLY" 0 true 0 true "tok" (by decide) rfl

/-- Counterexample for C2 as stated: rejecting the unsupported command
    `FLY` leaves a non-empty trace — the CSRF-token GET was sent over the
    wire before the validation error was raised. -/
theorem remote_command_unsupported_sends_token_fetch :
    (remote_command envOk "FLY" 0 true 0 true).trace = [Eff.net "token"] ∧
    ¬((remote_command envOk "FLY" 0 true 0 true).trace = []) := by
  refine ⟨rfl, ?_⟩
  intro h
  rw [show (remote_command envOk "FLY" 0 true 0 true).trace = [Eff.net "token"]
    from rfl] at h
  exact List.cons_ne_nil _ _ h

/-- One unfolding step of the polling loop: query first, then on a
    non-terminal status sleep the current interval and recurse with the
    default interval 3. -/
lemma remoteStatusFuel_succ (statuses : Nat → String) (fuel i interval : Nat) :
    remoteStatusFuel statuses (fuel + 1) i interval =
      if statuses i = "SUCCESS" then ([Eff.net "status"], some "completed")
      else
        (Eff.net "status" :: Eff.sleepEv interval ::
          (remoteStatusFuel statuses fuel (i + 1) 3).1,
         (remoteStatusFuel statuses fuel (i + 1) 3).2) := by
  by_cases h : statuses i = "SUCCESS" <;> simp [remoteStatusFuel, h]

/-- An in-range index makes `_validate_vehicle` succeed. -/
lemma validate_ok (idx : Int) (p : Profile)
    (h0 : 0 ≤ idx) (h1 : idx < (p.vehicles.length : Int)) :
    validate_vehicle idx p = Except.ok () := by
  unfold validate_vehicle
  rw [if_neg (by omega)]

/-- C7 (amended): with a healthy portal whose status endpoint is
    non-terminal twice and then `SUCCESS`, `remote_command` with polling
    returns the completed outcome after exactly three status queries; each
    iteration issues the query first, and the fixed 3-unit sleep separates
    consecutive queries (two sleeps — none before the first query). -/
theorem poll_three_queries (env : Env) (p : Profile) (tok srid : String)
    (idx : Int) (s : Bool) (fuel : Nat)
    (hprof : env.profileResp = fun _ => ProfileResp.ok p)
    (htok : env.tokenResp = fun _ => some tok)
    (hcr : env.commandResp = some srid)
    (hs0 : env.statusResp 0 ≠ "SUCCESS")
    (hs1 : env.statusResp 1 ≠ "SUCCESS")
    (hs2 : env.statusResp 2 = "SUCCESS")
    (h0 : 0 ≤ idx) (h1 : idx < (p.vehicles.length : Int)) :
    remote_command env COMMAND_LOCK idx true (fuel + 3) s =
      ⟨[Eff.net "token", Eff.net "profile", Eff.net "command",
        Eff.net "status", Eff.sleepEv 3, Eff.net "status", Eff.sleepEv 3,
        Eff.net "status"], s, Except.ok (some "completed")⟩ := by
  have hgp := get_profile_const env p hprof
  have hval := validate_ok idx p h0 h1
  have hq1 : remoteStatusFuel env.statusResp (fuel + 1) 2 3 =
      ([Eff.net "status"], some "completed") := by
    rw [remoteStatusFuel_succ, if_pos hs2]
  have hq2 : remoteStatusFuel env.statusResp (fuel + 2) 1 3 =
      ([Eff.net "status", Eff.sleepEv 3, Eff.net "status"],
       some "completed") := by
    rw [show fuel + 2 = (fuel + 1) + 1 from rfl, remoteStatusFuel_succ,
      if_neg hs1]
    simp [hq1]
  have hq3 : remoteStatusFuel env.statusResp (fuel + 3) 0 3 =
      ([Eff.net "status", Eff.sleepEv 3, Eff.net "status", Eff.sleepEv 3,
        Eff.net "status"], some "completed") := by
    rw [show fuel + 3 = (fuel + 2) + 1 from rfl, remoteStatusFuel_succ,
      if_neg hs0]
    simp [hq2]
  have hsupp : COMMAND_LOCK ∈ SUPPORTED_COMMANDS := by decide
  simp [remote_command, tokenWrap, remoteCommandBody, bindM, liftExc, htok,
    hcr, hval, hgp, remoteStatusM, hq3, hsupp]

/-- Witness for C7 (amended): the healthy portal (`SUCCESS` on the third
    query) at index 0 with just enough fuel. -/
theorem poll_three_queries_witness :
    remote_command envOk COMMAND_LOCK 0 true 3 true =
      ⟨[Eff.net "token", Eff.net "profile", Eff.net "command",
        Eff.net "status", Eff.sleepEv 3, Eff.net "status", Eff.sleepEv 3,
        Eff.net "status"], true, Except.ok (some "completed")⟩ :=
  poll_three_queries envOk sampleProfile "tok" "srid-1" 0 true 0
    rfl rfl rfl (by decide) (by decide) rfl (by decide) (by decide)

/-- Counterexample for C7 as stated: on the twice-pending-then-SUCCESS
    status stream, the polling loop's first action is the status query, not
    a sleep, and only two (not three) 3-unit sleeps occur for the three
    queries — the loop does not sleep-then-query on every iteration. -/
theorem poll_first_action_is_query :
    (remoteStatusFuel statusesPP 3 0 3).1.head? = some (Eff.net "status") ∧
    (remoteStatusFuel statusesPP 3 0 3).1.count (Eff.sleepEv 3) = 2 ∧
    ¬((remoteStatusFuel statusesPP 3 0 3).1.count (Eff.sleepEv 3) = 3) := by
  refine ⟨rfl, rfl, ?_⟩
  have h : (remoteStatusFuel statusesPP 3 0 3).1.count (Eff.sleepEv 3) = 2 := rfl
  omega

/-- C8: if the status endpoint never reports `SUCCESS`, the polling loop
    never produces an outcome, and the number of status queries equals the
    fuel — i.e. it grows without bound: the loop does not terminate. -/
theorem poll_never_terminates (statuses : Nat → String)
    (h : ∀ i, statuses i ≠ "SUCCESS") (fuel i interval : Nat) :
    (remoteStatusFuel statuses fuel i interval).2 = none ∧
    (remoteStatusFuel statuses fuel i interval).1.count (Eff.net "status") =
      fuel := by
  induction fuel generalizing i interval with
  | zero => simp [remoteStatusFuel]
  | succ n ih =>
    rw [remoteStatusFuel_succ, if_neg (h i)]
    obtain ⟨ha, hb⟩ := ih (i + 1) 3
    refine ⟨ha, ?_⟩
    simp [List.count_cons, hb]

/-- Witness for C8: an always-pending endpoint with fuel 2 issues 2 queries
    and produces no outcome. -/
theorem poll_never_terminates_witness :
    (remoteStatusFuel statusesNever 2 0 3).2 = none ∧
    (remoteStatusFuel statusesNever 2 0 3).1.count (Eff.net "status") = 2 :=
  poll_never_terminates statusesNever (by intro i; unfold statusesNever; decide)
    2 0 3

/-- Discarding a result: binding an operation to a unit return keeps its
    trace and state and maps any successful outcome to `()`. -/
lemma discard_eq {α : Type} (x : M α) (s : Bool) :
    bindM x (fun _ => pureM ()) s =
      ⟨(x s).trace, (x s).sess, (x s).res.map (fun _ => ())⟩ := by
  unfold bindM pureM
  cases hx : x s with
  | mk t s1 r =>
    cases r <;> simp [Except.map]

/-- C10: `lock`, `unlock`, `engine_on`, `engine_off` and `horn` each run
    `remote_command` with polling enabled (the default `poll=True`) and
    return `None`: the trace and session mutation of the polled command are
    kept, but its outcome is mapped to unit, so callers cannot observe
    whether the command completed. -/
theorem convenience_ops_discard_outcome (env : Env) (idx : Int) (fuel : Nat)
    (s : Bool) :
    lock env idx fuel s =
      ⟨(remote_command env COMMAND_LOCK idx true fuel s).trace,
       (remote_command env COMMAND_LOCK idx true fuel s).sess,
       (remote_command env COMMAND_LOCK idx true fuel s).res.map
         (fun _ => ())⟩ ∧
    unlock env idx fuel s =
      ⟨(remote_command env COMMAND_UNLOCK idx true fuel s).trace,
       (remote_command env COMMAND_UNLOCK idx true fuel s).sess,
       (remote_command env COMMAND_UNLOCK idx true fuel s).res.map
         (fun _ => ())⟩ ∧
    engine_on env idx fuel s =
      ⟨(remote_command env COMMAND_ENGINE_ON idx true fuel s).trace,
       (remote_command env COMMAND_ENGINE_ON idx true fuel s).sess,
       (remote_command env COMMAND_ENGINE_ON idx true fuel s).res.map
         (fun _ => ())⟩ ∧
    engine_off env idx fuel s =
      ⟨(remote_command env COMMAND_ENGINE_OFF idx true fuel s).trace,
       (remote_command env COMMAND_ENGINE_OFF idx true fuel s).sess,
       (remote_command env COMMAND_ENGINE_OFF idx true fuel s).res.map
         (fun _ => ())⟩ ∧
    horn env idx fuel s =
      ⟨(remote_command env COMMAND_HORN idx true fuel s).trace,
       (remote_command env COMMAND_HORN idx true fuel s).sess,
       (remote_command env COMMAND_HORN idx true fuel s).res.map
         (fun _ => ())⟩ :=
  ⟨discard_eq _ _, discard_eq _ _, discard_eq _ _, discard_eq _ _,
   discard_eq _ _⟩

/-- A kept leaf item whose value `0.0` is displayed as `Ok`. -/
def itemOil : RItem := RItem.mk "oil" (RVal.vstr "0.0") "Display" none

/-- A leaf item skipped for its category-description key. -/
def itemCat : RItem := RItem.mk "categoryDesc" (RVal.vstr "desc") "Display" none

/-- A kept leaf item nested below a skipped one. -/
def itemCell : RItem := RItem.mk "cell" (RVal.vstr "3.1") "Display" none

/-- A non-displayable item carrying a nested kept item. -/
def itemBattery : RItem :=
  RItem.mk "battery" (RVal.vstr "11.9") "NonDisplay" (some [itemCell])

/-- A flat (leaf-only) items list. -/
def flatItems : List RItem := [itemOil, itemCat]

/-- C9: a skipped item contributes nothing: flattening a tree containing a
    skipped item (at any position) equals flattening the tree with that
    item — and hence its entire subtree — removed, so no key of the
    subtree can reach the output through it, however its nested items
    would fare individually against the skip filter. -/
theorem skipped_subtree_contributes_nothing (l1 : List RItem) (i : RItem)
    (l2 : List RItem) (h : skipItem i = true) :
    traverseList (l1 ++ i :: l2) = traverseList (l1 ++ l2) := by
  rw [traverseList_append, traverseList_cons, if_pos h, traverseList_append]
  simp

/-- Witness for C9: the non-displayable battery item (with a kept nested
    cell item) leaves the flattened output untouched. -/
theorem skipped_subtree_contributes_nothing_witness :
    traverseList [itemBattery, itemOil] = traverseList [itemOil] :=
  skipped_subtree_contributes_nothing [] itemBattery [itemOil] (by decide)

/-- C5: the flattened output contains exactly the traversal-reached kept
    items: (soundness) any key/value the lookup yields comes from some
    reached item that passes the skip filter — so an item with
    non-displayable severity, the category-description key, or a sentinel
    value (`null`/`"Null"`/`"N/A"`/`"NULL"`) never contributes — with its
    value rewritten by the `0.0 ↦ Ok` normalization and otherwise
    unchanged; (completeness) every reached kept item's key is present in
    the output. -/
theorem traverse_exactness :
    (∀ (l : List RItem) (k : String) (v : RVal),
       dictLookup (traverseList l) k = some v →
       ∃ i, ReachKept l i ∧ i.itemKey = k ∧ rewriteVal i.value = v) ∧
    (∀ (l : List RItem) (i : RItem),
       ReachKept l i →
       ∃ v, dictLookup (traverseList l) i.itemKey = some v) := by
  constructor
  · intro l k v h
    obtain ⟨i, hr, h1, h2⟩ := mem_to_reach l (k, v) (dictLookup_some_mem _ _ _ h)
    exact ⟨i, hr, h1, h2⟩
  · intro l i h
    exact mem_key_isSome _ _ _ (reach_to_mem l i h)

/-- Witness for C5: the kept oil item of the concrete flat list is reached,
    and its key is present in the flattened output. -/
theorem traverse_exactness_witness :
    ∃ v, dictLookup (traverseList flatItems) (RItem.itemKey itemOil) = some v :=
  traverse_exactness.2 flatItems itemOil
    (ReachKept.here (List.mem_cons_self _ _) (by decide))

/-- Flat case: without nested items the flattening is the direct filter of
    non-skipped pairs (with the value normalization applied). -/
lemma traverse_flat (l : List RItem) :
    (∀ i, i ∈ l → i.items = none ∨ i.items = some []) →
    traverseList l = l.filterMap (fun i =>
      if skipItem i then none else some (i.itemKey, rewriteVal i.value)) := by
  induction l with
  | nil => intro _h; simp [traverseList_nil]
  | cons i r ih =>
    intro h
    rw [traverseList_cons, List.filterMap_cons]
    have hr := ih (fun j hj => h j (List.mem_cons_of_mem _ hj))
    have hchild : traverse_report i.items = [] := by
      rcases h i (List.mem_cons_self _ _) with hi | hi <;>
        simp [traverse_report, hi, traverseList_nil]
    cases hski : skipItem i <;> simp [hchild, hr]

/-- Merge case: a kept member's flattened subtree keys all appear in the
    parent list's flattened output. -/
lemma traverse_child_key (l : List RItem) (i : RItem) (k : String) (v : RVal)
    (hmem : i ∈ l) (hskip : skipItem i = false)
    (hlook : dictLookup (traverse_report i.items) k = some v) :
    ∃ w, dictLookup (traverseList l) k = some w := by
  cases hit : i.items with
  | none =>
    rw [hit] at hlook
    simp [traverse_report, dictLookup] at hlook
  | some l2 =>
    rw [hit] at hlook
    simp only [traverse_report] at hlook
    have hm := dictLookup_some_mem _ _ _ hlook
    exact mem_key_isSome _ _ _
      (nested_mem_traverse l i l2 (k, v) hmem hskip hit hm)

/-- C6: on a flat input (no item has nested items) the flattening equals
    the direct non-skipped key/value pairs; on a nested input every key of
    a kept item's flattened subtree is merged into the parent's output;
    and the merge is last-write-wins: a key written by the later part of
    the items list keeps the later value, and a key the later part does
    not write falls back to the earlier part's value. -/
theorem traverse_flat_and_merge :
    (∀ l : List RItem, (∀ i, i ∈ l → i.items = none ∨ i.items = some []) →
       traverseList l = l.filterMap (fun i =>
         if skipItem i then none else some (i.itemKey, rewriteVal i.value))) ∧
    (∀ (l : List RItem) (i : RItem) (k : String) (v : RVal),
       i ∈ l → skipItem i = false →
       dictLookup (traverse_report i.items) k = some v →
       ∃ w, dictLookup (traverseList l) k = some w) ∧
    (∀ (l1 l2 : List RItem) (k : String) (v : RVal),
       dictLookup (traverseList l2) k = some v →
       dictLookup (traverseList (l1 ++ l2)) k = some v) ∧
    (∀ (l1 l2 : List RItem) (k : String),
       dictLookup (traverseList l2) k = none →
       dictLookup (traverseList (l1 ++ l2)) k = dictLookup (traverseList l1) k) := by
  refine ⟨traverse_flat, fun l i k v hm hs hl => traverse_child_key l i k v hm hs hl,
    ?_, ?_⟩
  · intro l1 l2 k v h
    rw [traverseList_append, dictLookup_append, h]
  · intro l1 l2 k h
    rw [traverseList_append, dictLookup_append, h]

/-- Witness for C6: the concrete flat list flattens to its direct
    non-skipped pairs (the category-description item drops out, the `0.0`
    becomes `Ok`). -/
theorem traverse_flat_and_merge_witness :
    traverseList flatItems = flatItems.filterMap (fun i =>
      if skipItem i then none else some (i.itemKey, rewriteVal i.value)) :=
  traverse_flat_and_merge.1 flatItems (by
    intro i hi
    rcases List.mem_cons.mp hi with rfl | hi2
    · exact Or.inl rfl
    · rcases List.mem_cons.mp hi2 with rfl | hi3
      · exact Or.inl rfl
      · simp at hi3)

end Motorparts
